import Mathlib

/-!
# OpenClaw Production Toolkit — verification of the governance core

Shallow embedding of the decision pipeline of the OpenClaw production
toolkit: the policy engine (`policy-engine.js`), the audit logger
(`audit-logger.js`), the identity system (`identity-system.js`) and the
production-agent orchestrator (`production-agent.js`).

Modelling conventions:
* JavaScript strings are embedded as `List Char` (`Str`).
* JavaScript objects used as string-keyed maps (`Map`, plain objects,
  policy/identity registries, contexts) are embedded as association
  lists with JavaScript `Map.set` / property-assignment semantics
  (`mapSet` replaces the first binding in place, otherwise appends).
* JavaScript numbers appearing in contexts and conditions are embedded
  as rationals (`ℚ`); `NaN` is represented by `Option.none` at the
  points where the source can produce it (`parseFloat` failures).
* Fallible or effectful operations return their results together with
  explicit state and an explicit trace of audit events.
-/

set_option maxRecDepth 8000

namespace OpenClaw

/-- JavaScript strings, embedded as lists of characters. -/
abbrev Str := List Char

/-- Convenience literal conversion. -/
def strL (s : String) : Str := s.data

/-- A JavaScript value stored in a `context`/`details` payload.  The
model domain is restricted to numbers and strings, which are the value
shapes the governance core inspects. -/
inductive JSVal where
  | num (q : ℚ)
  | str (s : Str)
deriving DecidableEq

/-- A JavaScript object payload (`context`, `details`), embedded as an
association list from property name to value. -/
abbrev Context := List (Str × JSVal)

/-- First-binding lookup, the JS property/`Map.get` access. -/
def lookupMap {α : Type} : List (Str × α) → Str → Option α
  | [], _ => none
  | (k, v) :: rest, key => if k = key then some v else lookupMap rest key

/-- JS `Map.set` / property assignment: replace the first binding for
`key` in place, otherwise append a new binding. -/
def mapSet {α : Type} : List (Str × α) → Str → α → List (Str × α)
  | [], key, v => [(key, v)]
  | (k, w) :: rest, key, v =>
      if k = key then (key, v) :: rest else (k, w) :: mapSet rest key v

/-- JavaScript truthiness on the embedded value domain: a number is
truthy unless it is `0`, a string is truthy unless it is empty. -/
def jsTruthy : JSVal → Bool
  | .num q => q != 0
  | .str s => !s.isEmpty

theorem lookupMap_mapSet_same {α : Type} (m : List (Str × α)) (k : Str) (v : α) :
    lookupMap (mapSet m k v) k = some v := by
  induction m with
  | nil => simp [mapSet, lookupMap]
  | cons hd tl ih =>
      obtain ⟨k0, v0⟩ := hd
      by_cases h : k0 = k
      · simp [mapSet, h, lookupMap]
      · simp [mapSet, h, lookupMap, ih]

theorem lookupMap_mapSet_other {α : Type} (m : List (Str × α)) (k k2 : Str) (v : α)
    (hne : k2 ≠ k) : lookupMap (mapSet m k v) k2 = lookupMap m k2 := by
  have hne2 : ¬ k = k2 := fun h => hne h.symm
  induction m with
  | nil => simp [mapSet, lookupMap, hne2]
  | cons hd tl ih =>
      obtain ⟨k0, v0⟩ := hd
      by_cases h : k0 = k
      · subst h
        simp [mapSet, lookupMap, hne2]
      · simp only [mapSet, if_neg h, lookupMap]
        by_cases h2 : k0 = k2
        · simp [h2]
        · simp [h2, ih]

/-! ## Policy engine: pattern matching (`matchesPattern`) -/

/-- `matchesPattern(action, pattern)` from `policy-engine.js`:
exact match, then the universal wildcard, then the trailing-wildcard
prefix check, then the leading-wildcard suffix check. -/
def matchesPattern (action pat : Str) : Bool :=
  if action = pat then true
  else if pat = ['*'] then true
  else if pat.getLast? = some '*' then pat.dropLast.isPrefixOf action
  else if pat.head? = some '*' then (pat.drop 1).isSuffixOf action
  else false

/-- **C5.** `matchesPattern(action, pattern)` returns true iff: pattern
equals action; or pattern is `"*"`; or pattern ends with `"*"` and
action starts with pattern minus its trailing `"*"`; or — the trailing
check having been taken first and not applied — pattern starts with
`"*"` and action ends with pattern minus its leading `"*"`; and false
otherwise.  In particular `matchesPattern("read:customer_data","read:*")`,
`matchesPattern("anything:public","*:public")` and
`matchesPattern("x:y","*")` are true, and
`matchesPattern("write:x","read:*")` is false. -/
theorem C5_matchesPattern_spec :
    (∀ action pat : Str,
      matchesPattern action pat = true ↔
        (pat = action ∨ pat = ['*'] ∨
         (pat.getLast? = some '*' ∧ pat.dropLast.isPrefixOf action = true) ∨
         (pat.getLast? ≠ some '*' ∧ pat.head? = some '*' ∧
          (pat.drop 1).isSuffixOf action = true)))
    ∧ matchesPattern (strL "read:customer_data") (strL "read:*") = true
    ∧ matchesPattern (strL "anything:public") (strL "*:public") = true
    ∧ matchesPattern (strL "x:y") (strL "*") = true
    ∧ matchesPattern (strL "write:x") (strL "read:*") = false := by
  refine ⟨?_, by decide, by decide, by decide, by decide⟩
  intro action pat
  unfold matchesPattern
  split_ifs with h1 h2 h3 h4
  · simp only [true_iff]
    exact Or.inl h1.symm
  · simp only [true_iff]
    exact Or.inr (Or.inl h2)
  · constructor
    · intro hp
      exact Or.inr (Or.inr (Or.inl ⟨h3, hp⟩))
    · rintro (h | h | ⟨_, hp⟩ | ⟨hno, _, _⟩)
      · exact absurd h.symm h1
      · exact absurd h h2
      · exact hp
      · exact absurd h3 hno
  · constructor
    · intro hs
      exact Or.inr (Or.inr (Or.inr ⟨h3, h4, hs⟩))
    · rintro (h | h | ⟨hl, _⟩ | ⟨_, _, hs⟩)
      · exact absurd h.symm h1
      · exact absurd h h2
      · exact absurd hl h3
      · exact hs
  · constructor
    · intro h
      exact absurd h (by simp)
    · rintro (h | h | ⟨hl, _⟩ | ⟨_, hh, _⟩)
      · exact absurd h.symm h1
      · exact absurd h h2
      · exact absurd hl h3
      · exact absurd hh h4

/-! ## Policy engine: condition evaluation (`evaluateCondition`)

The source parses a condition with the JavaScript regular expression
`/(\w+)\s*([><=!]+)\s*(.+)/` (unanchored, backtracking) and then
dispatches on the captured operator.  The functions below embed that
regex's match semantics on the embedded character classes:
`\w = [A-Za-z0-9_]`, `\s = ASCII whitespace plus NBSP and BOM`
(the exotic Unicode space ranges are outside the model domain), and
`.` matches everything except the line terminators. -/

/-- The JS `\w` class: ASCII letters, digits and underscore. -/
def isWordChar (c : Char) : Bool := c.isAlphanum || c = '_'

/-- The JS `\s` class, restricted to the model's character domain. -/
def isSpaceChar (c : Char) : Bool :=
  c = ' ' || c = '\t' || c = '\n' || c = '\r' || c = '\x0b' || c = '\x0c'
    || c = ' ' || c = '﻿'

/-- The characters matched by `.` in a JS regex: everything except the
four line terminators. -/
def isDotChar (c : Char) : Bool :=
  !(c = '\n' || c = '\r' || c = ' ' || c = ' ')

/-- The operator character class `[><=!]`. -/
def isOpChar (c : Char) : Bool := c = '>' || c = '<' || c = '=' || c = '!'

/-- Whether backtracking of `\s*` may stop just before position `p` of
`r`: the character at `p` must exist and be matchable by `.`. -/
def dotAt (r : Str) (p : Nat) : Bool :=
  match r[p]? with
  | some c => isDotChar c
  | none => false

/-- Greedy search (largest first) for a stop position `p ≤ bound` of the
`\s*` loop such that `(.+)` can start at `p`. -/
def findDotStart (r : Str) : Nat → Option Nat
  | 0 => if dotAt r 0 then some 0 else none
  | p + 1 => if dotAt r (p + 1) then some (p + 1) else findDotStart r p

/-- Match `\s*(.+)` against `r` with the regex's greedy backtracking;
returns the text captured by `(.+)`. -/
def matchValuePart (r : Str) : Option Str :=
  match findDotStart r (r.takeWhile isSpaceChar).length with
  | some p => some ((r.drop p).takeWhile isDotChar)
  | none => none

/-- Attempt to match `(\w+)\s*([><=!]+)\s*(.+)` starting exactly at the
head of `s`; returns the three captured groups.  Because the `\w`, `\s`
and `[><=!]` classes are pairwise disjoint, the only backtracking that
can change the outcome is giving the final operator character back to
`(.+)` when nothing else is left for it. -/
def matchAtPos (s : Str) : Option (Str × Str × Str) :=
  let field := s.takeWhile isWordChar
  if field.isEmpty then none else
  let r2 := (s.drop field.length).dropWhile isSpaceChar
  let opRun := r2.takeWhile isOpChar
  if opRun.isEmpty then none else
  let r3 := r2.drop opRun.length
  match matchValuePart r3 with
  | some v => some (field, opRun, v)
  | none =>
      if 2 ≤ opRun.length then
        some (field, opRun.dropLast,
          ((opRun.getLast?.toList ++ r3).takeWhile isDotChar))
      else none

/-- `condition.match(/(\w+)\s*([><=!]+)\s*(.+)/)`: try each start
position left to right and return the first successful match's capture
groups `(field, operator, value)`. -/
def condRegexMatch : Str → Option (Str × Str × Str)
  | [] => none
  | c :: rest =>
      match matchAtPos (c :: rest) with
      | some x => some x
      | none => condRegexMatch rest

/-- Numeric value of a digit string (most significant first). -/
def digitsToNat (ds : Str) : Nat :=
  ds.foldl (fun a c => a * 10 + (c.toNat - 48)) 0

/-- Parse an optional exponent suffix `e|E [+|-] digits`; an
incomplete exponent is ignored, exactly as `parseFloat` ignores any
trailing text after the longest valid literal prefix. -/
def parseExp (s : Str) : Int :=
  match s with
  | 'e' :: r => parseExpTail r
  | 'E' :: r => parseExpTail r
  | _ => 0
where
  parseExpTail (r : Str) : Int :=
    let (sgn, r2) : Int × Str :=
      match r with
      | '-' :: t => (-1, t)
      | '+' :: t => (1, t)
      | t => (1, t)
    let ds := r2.takeWhile Char.isDigit
    if ds.isEmpty then 0 else sgn * (digitsToNat ds : Int)

/-- The rational `±(ip.fp) × 10^e`, assembled from its integer parts
with a single normalising `mkRat` (integer arithmetic, so that the
value computes by kernel reduction). -/
def ratOfParts (sgnNeg : Bool) (ip fp : Str) (e : Int) : ℚ :=
  let m : Nat := digitsToNat ip * 10 ^ fp.length + digitsToNat fp
  let sm : Int := if sgnNeg then -(m : Int) else (m : Int)
  if 0 ≤ e then mkRat (sm * (10 : Int) ^ e.toNat) (10 ^ fp.length)
  else mkRat sm (10 ^ fp.length * 10 ^ (-e).toNat)

/-- JS `parseFloat` on the embedded domain: skip leading whitespace,
optional sign, decimal digits with an optional fraction and an optional
exponent; everything after the longest valid prefix is ignored; no
valid prefix yields `NaN`, modelled as `none`.  (`Infinity` and hex
literals are outside the model domain.) -/
def parseFloat (s : Str) : Option ℚ :=
  let s1 := s.dropWhile isSpaceChar
  let (sgnNeg, s2) : Bool × Str :=
    match s1 with
    | '-' :: r => (true, r)
    | '+' :: r => (false, r)
    | r => (false, r)
  let ip := s2.takeWhile Char.isDigit
  let s3 := s2.drop ip.length
  let (fp, s4) : Str × Str :=
    match s3 with
    | '.' :: r => (r.takeWhile Char.isDigit, r.drop (r.takeWhile Char.isDigit).length)
    | r => ([], r)
  if ip.isEmpty && fp.isEmpty then none
  else some (ratOfParts sgnNeg ip fp (parseExp s4))

/-- JS `ToNumber` on a string (used by loose equality): trimmed empty
string is `0`; otherwise the whole trimmed string must be a numeric
literal, else `NaN` (`none`).  (`Infinity` and hex literals are outside
the model domain.) -/
def toNumber (s : Str) : Option ℚ :=
  let t := (s.dropWhile isSpaceChar).reverse.dropWhile isSpaceChar |>.reverse
  if t.isEmpty then some 0
  else
    let (sgnNeg, s2) : Bool × Str :=
      match t with
      | '-' :: r => (true, r)
      | '+' :: r => (false, r)
      | r => (false, r)
    let ip := s2.takeWhile Char.isDigit
    let s3 := s2.drop ip.length
    let (fp, s4) : Str × Str :=
      match s3 with
      | '.' :: r => (r.takeWhile Char.isDigit, r.drop (r.takeWhile Char.isDigit).length)
      | r => ([], r)
    if ip.isEmpty && fp.isEmpty then none
    else
      let rest : Str :=
        match s4 with
        | 'e' :: r | 'E' :: r =>
            let r2 : Str :=
              match r with
              | '-' :: t2 => t2
              | '+' :: t2 => t2
              | t2 => t2
            if (r2.takeWhile Char.isDigit).isEmpty then s4
            else r2.drop (r2.takeWhile Char.isDigit).length
        | r => r
      if rest.isEmpty then some (ratOfParts sgnNeg ip fp (parseExp s4))
      else none

/-- `parseFloat(contextValue)`: a number re-parses to itself, a string
goes through `parseFloat`. -/
def parseFloatVal : JSVal → Option ℚ
  | .num q => some q
  | .str s => parseFloat s

/-- `valueStr.replace(/[$,]/g, '')`. -/
def stripMoney (s : Str) : Str :=
  s.filter (fun c => !(c = '$' || c = ','))

/-- JS `<` on possibly-NaN numbers: any comparison with NaN is false. -/
def qLtB : Option ℚ → Option ℚ → Bool
  | some a, some b => a < b
  | _, _ => false

def qGtB : Option ℚ → Option ℚ → Bool
  | some a, some b => b < a
  | _, _ => false

def qLeB : Option ℚ → Option ℚ → Bool
  | some a, some b => a ≤ b
  | _, _ => false

def qGeB : Option ℚ → Option ℚ → Bool
  | some a, some b => b ≤ a
  | _, _ => false

/-- JS loose equality between a context value and the parsed numeric
value (possibly NaN): NaN is equal to nothing; a string operand is
converted with `ToNumber`. -/
def jsLooseEq (cv : JSVal) (v : Option ℚ) : Bool :=
  match v with
  | none => false
  | some q =>
      match cv with
      | .num q2 => q2 == q
      | .str s =>
          match toNumber s with
          | some q2 => q2 == q
          | none => false

/-- `evaluateCondition(condition, context)` from `policy-engine.js`. -/
def evaluateCondition (condition : Str) (context : Context) : Bool :=
  match condRegexMatch condition with
  | none => false
  | some (field, op, valueStr) =>
      let contextValue := lookupMap context field
      let value := parseFloat (stripMoney valueStr)
      match contextValue with
      | none => false
      | some cv =>
          if op = strL ">" then qGtB (parseFloatVal cv) value
          else if op = strL "<" then qLtB (parseFloatVal cv) value
          else if op = strL ">=" then qGeB (parseFloatVal cv) value
          else if op = strL "<=" then qLeB (parseFloatVal cv) value
          else if op = strL "==" then jsLooseEq cv value
          else if op = strL "!=" then !(jsLooseEq cv value)
          else false

/-! ## Policy engine: rules, policies, `checkPermission` -/

/-- An escalation rule: either a plain pattern string, or a conditional
object `{action?, condition?}` (either field may be absent, as in the
YAML source of the policies). -/
inductive EscRule where
  | strRule (pat : Str)
  | condRule (act : Option Str) (condition : Option Str)
deriving DecidableEq

/-- Truthiness of an optional string property (absent or empty is
falsy). -/
def optTruthyStr : Option Str → Bool
  | some s => !s.isEmpty
  | none => false

/-- `matchesConditional(rule, action, context)` for an object rule with
fields `act`/`condition`: a truthy `action` pattern that does not match
rejects the rule; a truthy `condition` is evaluated; otherwise the rule
does not match. -/
def matchesConditional (act condition : Option Str) (action : Str) (ctx : Context) : Bool :=
  if optTruthyStr act && !(matchesPattern action (act.getD [])) then false
  else if optTruthyStr condition then evaluateCondition (condition.getD []) ctx
  else false

/-- Whether a single escalation rule matches the action/context. -/
def escRuleMatches (r : EscRule) (action : Str) (ctx : Context) : Bool :=
  match r with
  | .strRule p => matchesPattern action p
  | .condRule a c => matchesConditional a c action ctx

/-- `checkEscalation(escalationRules, action, context)`: scan in
declaration order, returning the first matching rule. -/
def checkEscalation (rules : List EscRule) (action : Str) (ctx : Context) : Option EscRule :=
  match rules with
  | [] => none
  | r :: rest =>
      if escRuleMatches r action ctx then some r else checkEscalation rest action ctx

/-- `matchesRules(action, rules, context)`: first pattern in the list
matching the action. -/
def matchesRules (action : Str) (rules : List Str) : Option Str :=
  match rules with
  | [] => none
  | r :: rest => if matchesPattern action r then some r else matchesRules action rest

/-- The `permissions` block of a policy document; each rule list may be
absent. -/
structure Permissions where
  allow : Option (List Str)
  deny : Option (List Str)
  escalate : Option (List EscRule)
deriving DecidableEq

/-- A loaded policy document (the `permissions` block may be absent). -/
structure Policy where
  agent : Str
  permissions : Option Permissions
deriving DecidableEq

/-- Which branch of `checkPermission` produced the decision; carries the
information the source interpolates into its `reason` string. -/
inductive Reason where
  | noPolicy
  | escalationMatch (rule : EscRule)
  | deniedBy (rule : Str)
  | allowedBy (rule : Str)
  | defaultDeny
deriving DecidableEq

/-- The decision record returned by `checkPermission`:
`{allowed, reason, requiresEscalation, escalationRule?}`. -/
structure Decision where
  allowed : Bool
  requiresEscalation : Bool
  escalationRule : Option EscRule
  reason : Reason
deriving DecidableEq

/-- The escalate rule list of a policy (empty when the `permissions`
block or its `escalate` list is absent — both make the source skip the
escalation stage, which is the same as scanning no rules). -/
def escOf (p : Policy) : List EscRule :=
  match p.permissions with
  | some pm => pm.escalate.getD []
  | none => []

/-- The deny rule list of a policy (see `escOf`). -/
def denyOf (p : Policy) : List Str :=
  match p.permissions with
  | some pm => pm.deny.getD []
  | none => []

/-- The allow rule list of a policy (see `escOf`). -/
def allowOf (p : Policy) : List Str :=
  match p.permissions with
  | some pm => pm.allow.getD []
  | none => []

/-- `checkPermission(agentId, action, context)` from
`policy-engine.js`: fail-secure when no policy is loaded, then
escalation stage, deny stage, allow stage, default deny. -/
def checkPermission (policies : List (Str × Policy)) (agentId action : Str)
    (ctx : Context) : Decision :=
  match lookupMap policies agentId with
  | none => ⟨false, false, none, Reason.noPolicy⟩
  | some policy =>
      match checkEscalation (escOf policy) action ctx with
      | some r => ⟨false, true, some r, Reason.escalationMatch r⟩
      | none =>
          match matchesRules action (denyOf policy) with
          | some r => ⟨false, false, none, Reason.deniedBy r⟩
          | none =>
              match matchesRules action (allowOf policy) with
              | some r => ⟨true, false, none, Reason.allowedBy r⟩
              | none => ⟨false, false, none, Reason.defaultDeny⟩

theorem checkEscalation_eq_find (rules : List EscRule) (action : Str) (ctx : Context) :
    checkEscalation rules action ctx = rules.find? (fun r => escRuleMatches r action ctx) := by
  induction rules with
  | nil => rfl
  | cons r rest ih =>
      by_cases h : escRuleMatches r action ctx
      · simp [checkEscalation, h, List.find?]
      · simp only [checkEscalation, if_neg h, ih, List.find?]
        simp [h]

theorem matchesRules_eq_find (action : Str) (rules : List Str) :
    matchesRules action rules = rules.find? (fun r => matchesPattern action r) := by
  induction rules with
  | nil => rfl
  | cons r rest ih =>
      by_cases h : matchesPattern action r
      · simp [matchesRules, h, List.find?]
      · simp only [matchesRules, if_neg h, ih, List.find?]
        simp [h]

theorem checkEscalation_ne_none_of_mem {rules : List EscRule} {action : Str} {ctx : Context}
    {r : EscRule} (hr : r ∈ rules) (hm : escRuleMatches r action ctx = true) :
    checkEscalation rules action ctx ≠ none := by
  induction rules with
  | nil => cases hr
  | cons hd tl ih =>
      rcases List.mem_cons.mp hr with h | h
      · subst h
        simp [checkEscalation, hm]
      · by_cases hhd : escRuleMatches hd action ctx
        · simp [checkEscalation, hhd]
        · simpa [checkEscalation, hhd] using ih h

theorem matchesRules_ne_none_of_mem {rules : List Str} {action : Str}
    {r : Str} (hr : r ∈ rules) (hm : matchesPattern action r = true) :
    matchesRules action rules ≠ none := by
  induction rules with
  | nil => cases hr
  | cons hd tl ih =>
      rcases List.mem_cons.mp hr with h | h
      · subst h
        simp [matchesRules, hm]
      · by_cases hhd : matchesPattern action hd
        · simp [matchesRules, hhd]
        · simpa [matchesRules, hhd] using ih h

/-- **C1.** `checkPermission` follows the fixed five-stage algorithm:
no loaded policy is a fail-secure `allowed:false, requiresEscalation:false`;
otherwise the escalate rules are scanned first in declaration order and
the first match yields `allowed:false, requiresEscalation:true` with the
matching rule; then the deny rules (first match yields `allowed:false`);
then the allow rules (first match yields `allowed:true`); otherwise the
default deny.  Consequently a matching escalate rule forces escalation
over any deny/allow rule, and a matching deny rule forces denial over
any allow rule, regardless of declaration order across rule types. -/
theorem C1_checkPermission_stages (policies : List (Str × Policy)) (agentId action : Str)
    (ctx : Context) :
    (lookupMap policies agentId = none →
      checkPermission policies agentId action ctx = ⟨false, false, none, Reason.noPolicy⟩)
    ∧ (∀ pol r, lookupMap policies agentId = some pol →
        checkEscalation (escOf pol) action ctx = some r →
        checkPermission policies agentId action ctx = ⟨false, true, some r, Reason.escalationMatch r⟩)
    ∧ (∀ pol r, lookupMap policies agentId = some pol →
        checkEscalation (escOf pol) action ctx = none →
        matchesRules action (denyOf pol) = some r →
        checkPermission policies agentId action ctx = ⟨false, false, none, Reason.deniedBy r⟩)
    ∧ (∀ pol r, lookupMap policies agentId = some pol →
        checkEscalation (escOf pol) action ctx = none →
        matchesRules action (denyOf pol) = none →
        matchesRules action (allowOf pol) = some r →
        checkPermission policies agentId action ctx = ⟨true, false, none, Reason.allowedBy r⟩)
    ∧ (∀ pol, lookupMap policies agentId = some pol →
        checkEscalation (escOf pol) action ctx = none →
        matchesRules action (denyOf pol) = none →
        matchesRules action (allowOf pol) = none →
        checkPermission policies agentId action ctx = ⟨false, false, none, Reason.defaultDeny⟩)
    ∧ (∀ rules, checkEscalation rules action ctx
          = rules.find? (fun r => escRuleMatches r action ctx))
    ∧ (∀ rules, matchesRules action rules
          = rules.find? (fun r => matchesPattern action r))
    ∧ (∀ pol, lookupMap policies agentId = some pol →
        (∃ r ∈ escOf pol, escRuleMatches r action ctx = true) →
        (checkPermission policies agentId action ctx).requiresEscalation = true
          ∧ (checkPermission policies agentId action ctx).allowed = false)
    ∧ (∀ pol, lookupMap policies agentId = some pol →
        checkEscalation (escOf pol) action ctx = none →
        (∃ r ∈ denyOf pol, matchesPattern action r = true) →
        (checkPermission policies agentId action ctx).allowed = false
          ∧ (checkPermission policies agentId action ctx).requiresEscalation = false) := by
  refine ⟨?_, ?_, ?_, ?_, ?_, ?_, ?_, ?_, ?_⟩
  · intro h
    simp [checkPermission, h]
  · intro pol r hpol hesc
    simp [checkPermission, hpol, hesc]
  · intro pol r hpol hesc hden
    simp [checkPermission, hpol, hesc, hden]
  · intro pol r hpol hesc hden hall
    simp [checkPermission, hpol, hesc, hden, hall]
  · intro pol hpol hesc hden hall
    simp [checkPermission, hpol, hesc, hden, hall]
  · intro rules
    exact checkEscalation_eq_find rules action ctx
  · intro rules
    exact matchesRules_eq_find action rules
  · intro pol hpol hex
    obtain ⟨r, hr, hm⟩ := hex
    have hne := checkEscalation_ne_none_of_mem hr hm
    obtain ⟨r2, hr2⟩ := Option.ne_none_iff_exists'.mp hne
    simp [checkPermission, hpol, hr2]
  · intro pol hpol hesc hex
    obtain ⟨r, hr, hm⟩ := hex
    have hne := matchesRules_ne_none_of_mem hr hm
    obtain ⟨r2, hr2⟩ := Option.ne_none_iff_exists'.mp hne
    simp [checkPermission, hpol, hesc, hr2]

/-- Witness for `C1_checkPermission_stages`: a concrete policy with one
rule of each kind, evaluated at concrete actions. -/
theorem C1_checkPermission_stages_witness :
    checkPermission
      [(strL "agent-a", ⟨strL "agent-a",
        some ⟨some [strL "read:*"], some [strL "delete:*"], some [EscRule.strRule (strL "refund_requests")]⟩⟩)]
      (strL "agent-a") (strL "refund_requests") []
      = ⟨false, true, some (EscRule.strRule (strL "refund_requests")),
          Reason.escalationMatch (EscRule.strRule (strL "refund_requests"))⟩ := by
  exact (C1_checkPermission_stages
      [(strL "agent-a", ⟨strL "agent-a",
        some ⟨some [strL "read:*"], some [strL "delete:*"], some [EscRule.strRule (strL "refund_requests")]⟩⟩)]
      (strL "agent-a") (strL "refund_requests") []).2.1
    ⟨strL "agent-a",
      some ⟨some [strL "read:*"], some [strL "delete:*"], some [EscRule.strRule (strL "refund_requests")]⟩⟩
    (EscRule.strRule (strL "refund_requests")) (by decide) (by decide)

/-- **C6.** A conditional rule (with both fields present) triggers iff
its action pattern matches the action and its condition evaluates true
against the context; a field absent from the context makes the
condition false (fail-closed); and in scenario B, with condition
`"amount > 500"` and action pattern `"refund"`, context `{amount:300}`
falls through to the deny/allow stages (here: the allow stage) while
`{amount:700}` triggers escalation. -/
theorem C6_conditional_escalation :
    (∀ (pa c action : Str) (ctx : Context), pa ≠ [] → c ≠ [] →
      matchesConditional (some pa) (some c) action ctx
        = (matchesPattern action pa && evaluateCondition c ctx))
    ∧ (∀ (cond : Str) (ctx : Context) (f op v : Str),
        condRegexMatch cond = some (f, op, v) → lookupMap ctx f = none →
        evaluateCondition cond ctx = false)
    ∧ escRuleMatches (EscRule.condRule (some (strL "refund")) (some (strL "amount > 500")))
        (strL "refund") [(strL "amount", JSVal.num 300)] = false
    ∧ escRuleMatches (EscRule.condRule (some (strL "refund")) (some (strL "amount > 500")))
        (strL "refund") [(strL "amount", JSVal.num 700)] = true
    ∧ checkPermission
        [(strL "agent-b", ⟨strL "agent-b",
          some ⟨some [strL "refund"], none,
            some [EscRule.condRule (some (strL "refund")) (some (strL "amount > 500"))]⟩⟩)]
        (strL "agent-b") (strL "refund") [(strL "amount", JSVal.num 300)]
        = ⟨true, false, none, Reason.allowedBy (strL "refund")⟩
    ∧ (checkPermission
        [(strL "agent-b", ⟨strL "agent-b",
          some ⟨some [strL "refund"], none,
            some [EscRule.condRule (some (strL "refund")) (some (strL "amount > 500"))]⟩⟩)]
        (strL "agent-b") (strL "refund") [(strL "amount", JSVal.num 700)]).requiresEscalation
        = true := by
  refine ⟨?_, ?_, by decide, by decide, by decide, by decide⟩
  · intro pa c action ctx hpa hc
    have hpa2 : pa.isEmpty = false := by
      cases pa with
      | nil => exact absurd rfl hpa
      | cons x xs => rfl
    have hc2 : c.isEmpty = false := by
      cases c with
      | nil => exact absurd rfl hc
      | cons x xs => rfl
    by_cases hm : matchesPattern action pa
    · simp [matchesConditional, optTruthyStr, hpa2, hc2, hm]
    · simp [matchesConditional, optTruthyStr, hpa2, hc2, hm]
  · intro cond ctx f op v hmatch hlk
    simp [evaluateCondition, hmatch, hlk]

/-- Witness for `C6_conditional_escalation` at concrete inputs. -/
theorem C6_conditional_escalation_witness :
    matchesConditional (some (strL "refund")) (some (strL "amount > 500"))
        (strL "refund") [(strL "amount", JSVal.num 700)]
      = (matchesPattern (strL "refund") (strL "refund")
          && evaluateCondition (strL "amount > 500") [(strL "amount", JSVal.num 700)])
    ∧ evaluateCondition (strL "amount > 500") [] = false :=
  ⟨(C6_conditional_escalation).1 (strL "refund") (strL "amount > 500")
      (strL "refund") [(strL "amount", JSVal.num 700)] (by decide) (by decide),
   (C6_conditional_escalation).2.1 (strL "amount > 500") []
      (strL "amount") (strL ">") (strL "500") (by decide) (by decide)⟩

/-- **C10.** The condition evaluator is fail-closed: a condition string
the regex does not match evaluates to false; a matched condition whose
operator is outside the six supported ones evaluates to false; and a
conditional rule carrying no condition field never matches (so it never
triggers escalation), even when its action pattern matches. -/
theorem C10_condition_fail_closed :
    (∀ (cond : Str) (ctx : Context), condRegexMatch cond = none →
      evaluateCondition cond ctx = false)
    ∧ (∀ (cond : Str) (ctx : Context) (f op v : Str),
        condRegexMatch cond = some (f, op, v) →
        op ∉ [strL ">", strL "<", strL ">=", strL "<=", strL "==", strL "!="] →
        evaluateCondition cond ctx = false)
    ∧ (∀ (act : Option Str) (action : Str) (ctx : Context),
        matchesConditional act none action ctx = false)
    ∧ (∀ (act : Option Str) (action : Str) (ctx : Context),
        checkEscalation [EscRule.condRule act none] action ctx = none) := by
  have hcond : ∀ (act : Option Str) (action : Str) (ctx : Context),
      matchesConditional act none action ctx = false := by
    intro act action ctx
    simp [matchesConditional, optTruthyStr]
  refine ⟨?_, ?_, hcond, ?_⟩
  · intro cond ctx hnone
    simp [evaluateCondition, hnone]
  · intro cond ctx f op v hmatch hop
    simp only [List.mem_cons, List.not_mem_nil, or_false, not_or] at hop
    obtain ⟨h1, h2, h3, h4, h5, h6⟩ := hop
    cases hlk : lookupMap ctx f with
    | none => simp [evaluateCondition, hmatch, hlk]
    | some cv => simp [evaluateCondition, hmatch, hlk, h1, h2, h3, h4, h5, h6]
  · intro act action ctx
    simp [checkEscalation, escRuleMatches, hcond]

/-- Witness for `C10_condition_fail_closed` at concrete inputs: a
condition with no comparison operator, one with the unsupported
operator `===`, and a conditional rule without a condition field. -/
theorem C10_condition_fail_closed_witness :
    evaluateCondition (strL "no operator here") [(strL "amount", JSVal.num 700)] = false
    ∧ evaluateCondition (strL "amount === 700") [(strL "amount", JSVal.num 700)] = false
    ∧ matchesConditional (some (strL "refund")) none (strL "refund") [] = false :=
  ⟨(C10_condition_fail_closed).1 (strL "no operator here")
      [(strL "amount", JSVal.num 700)] (by decide),
   (C10_condition_fail_closed).2.1 (strL "amount === 700")
      [(strL "amount", JSVal.num 700)] (strL "amount") (strL "===") (strL "700")
      (by decide) (by decide),
   (C10_condition_fail_closed).2.2.1 (some (strL "refund")) (strL "refund") []⟩

/-! ## Audit logger: context sanitization (`sanitizeContext`) -/

/-- The fixed denylist of sensitive field names. -/
def sensitiveFields : List Str :=
  [strL "password", strL "token", strL "secret", strL "apiKey", strL "ssn", strL "creditCard"]

/-- The redaction marker. -/
def redactedMarker : JSVal := JSVal.str (strL "[REDACTED]")

/-- `sanitizeContext(context)` from `audit-logger.js`: copy the context,
then for each sensitive field name, if the field's current value is
truthy (the source's `if (sanitized[field])`), overwrite it with the
redaction marker. -/
def sanitizeContext (context : Context) : Context :=
  sensitiveFields.foldl
    (fun acc f =>
      match lookupMap acc f with
      | some v => if jsTruthy v then mapSet acc f redactedMarker else acc
      | none => acc)
    context

/-- One step of the sanitize fold. -/
def sanitizeStep (acc : Context) (f : Str) : Context :=
  match lookupMap acc f with
  | some v => if jsTruthy v then mapSet acc f redactedMarker else acc
  | none => acc

theorem sanitizeContext_eq_foldl (context : Context) :
    sanitizeContext context = sensitiveFields.foldl sanitizeStep context := rfl

theorem lookup_sanitizeStep_other (acc : Context) (f k : Str) (hne : k ≠ f) :
    lookupMap (sanitizeStep acc f) k = lookupMap acc k := by
  unfold sanitizeStep
  cases h : lookupMap acc f with
  | none => rfl
  | some v =>
      by_cases ht : jsTruthy v
      · simp [ht, lookupMap_mapSet_other _ _ _ _ hne]
      · simp [ht]

theorem lookup_sanitizeStep_same (acc : Context) (f : Str) :
    lookupMap (sanitizeStep acc f) f
      = (lookupMap acc f).map (fun v => if jsTruthy v then redactedMarker else v) := by
  unfold sanitizeStep
  cases h : lookupMap acc f with
  | none => simp [h]
  | some v =>
      by_cases ht : jsTruthy v
      · simp [h, ht, lookupMap_mapSet_same]
      · simp [h, ht]

theorem lookup_sanitizeFold (fs : List Str) (acc : Context) (k : Str) :
    lookupMap (fs.foldl sanitizeStep acc) k
      = if k ∈ fs then
          (lookupMap acc k).map (fun v => if jsTruthy v then redactedMarker else v)
        else lookupMap acc k := by
  induction fs generalizing acc with
  | nil => simp
  | cons f rest ih =>
      by_cases hk : k = f
      · subst hk
        rw [List.foldl_cons, ih, if_pos (List.mem_cons_self k rest)]
        rw [lookup_sanitizeStep_same]
        by_cases hr : k ∈ rest
        · rw [if_pos hr]
          cases h : lookupMap acc k with
          | none => simp
          | some v =>
              by_cases ht : jsTruthy v
              · have hred : jsTruthy redactedMarker = true := by decide
                simp [ht, hred]
              · simp [ht]
        · rw [if_neg hr]
      · simp only [List.foldl_cons, ih, List.mem_cons]
        rw [lookup_sanitizeStep_other _ _ _ hk]
        simp [hk]

/-- The claim of C9 is false on the code: `sanitizeContext` only
replaces a sensitive field when its value is truthy — a falsy value
such as the number `0` under the key `password` is persisted
unredacted. -/
theorem C9_sanitize_counterexample :
    lookupMap (sanitizeContext [(strL "password", JSVal.num 0)]) (strL "password")
      = some (JSVal.num 0)
    ∧ JSVal.num 0 ≠ redactedMarker := by
  constructor
  · decide
  · decide

/-- **C9 (amended).** For every payload sanitized before persisting,
every field whose key is exactly one of password, token, secret,
apiKey, ssn, creditCard (case-sensitive) *and whose value is truthy*
has its value replaced by `"[REDACTED]"`; a sensitive field with a
falsy value (such as `0`, `""`) is left unchanged; and all fields with
other keys are left unchanged. -/
theorem C9_sanitize_amended (ctx : Context) (k : Str) :
    (∀ v, k ∈ sensitiveFields → lookupMap ctx k = some v → jsTruthy v = true →
      lookupMap (sanitizeContext ctx) k = some redactedMarker)
    ∧ (∀ v, k ∈ sensitiveFields → lookupMap ctx k = some v → jsTruthy v = false →
      lookupMap (sanitizeContext ctx) k = some v)
    ∧ (k ∉ sensitiveFields → lookupMap (sanitizeContext ctx) k = lookupMap ctx k) := by
  refine ⟨?_, ?_, ?_⟩
  · intro v hmem hlk ht
    rw [sanitizeContext_eq_foldl, lookup_sanitizeFold, if_pos hmem, hlk]
    simp [ht]
  · intro v hmem hlk ht
    rw [sanitizeContext_eq_foldl, lookup_sanitizeFold, if_pos hmem, hlk]
    simp [ht]
  · intro hmem
    rw [sanitizeContext_eq_foldl, lookup_sanitizeFold, if_neg hmem]

/-- Witness for `C9_sanitize_amended` at concrete inputs: a truthy
password is redacted, a falsy ssn is kept, an ordinary field is kept. -/
theorem C9_sanitize_amended_witness :
    lookupMap (sanitizeContext [(strL "password", JSVal.str (strL "hunter2"))])
        (strL "password") = some redactedMarker
    ∧ lookupMap (sanitizeContext [(strL "ssn", JSVal.str [])]) (strL "ssn")
        = some (JSVal.str [])
    ∧ lookupMap (sanitizeContext [(strL "user", JSVal.str (strL "amy"))]) (strL "user")
        = lookupMap [(strL "user", JSVal.str (strL "amy"))] (strL "user") :=
  ⟨(C9_sanitize_amended [(strL "password", JSVal.str (strL "hunter2"))] (strL "password")).1
      (JSVal.str (strL "hunter2")) (by decide) (by decide) (by decide),
   (C9_sanitize_amended [(strL "ssn", JSVal.str [])] (strL "ssn")).2.1
      (JSVal.str []) (by decide) (by decide) (by decide),
   (C9_sanitize_amended [(strL "user", JSVal.str (strL "amy"))] (strL "user")).2.2
      (by decide)⟩

/-! ## Audit logger: the hash chain (`writeEntry`, `hashEntry`, `verifyChain`)

`hashEntry` hashes the JSON serialization of the subset
`{type, timestamp, agentId, action, decision, previousHash}` of an
entry with SHA-256.  The embedding abstracts "serialize the subset and
hash it" into a function `H : EntryData → Option Hash → Hash`; the
collision-freeness of SHA-256 on these serializations is the
injectivity hypothesis of the tamper-detection theorem.  Fields of a
persisted entry that are *not* part of that subset (sanitized
`context`/`details`, `result`, `timestampUnix`, `durationMs`, …) are
collected in `EntryExtra`. -/

/-- The `type` field of an audit entry. -/
inductive EntryType where
  | policyDecision
  | agentAction
  | escalation
  | escalationResolution
  | identityVerification
deriving DecidableEq

/-- The fields of an audit entry covered by `hashEntry` (besides
`previousHash`): `{type, timestamp, agentId, action, decision}`.  The
`decision` field is absent (dropped by `JSON.stringify`) on entry types
other than `policy_decision`. -/
structure EntryData where
  type : EntryType
  timestamp : Str
  agentId : Str
  action : Str
  decision : Option Decision
deriving DecidableEq

/-- The persisted fields of an audit entry *not* covered by
`hashEntry`: the sanitized payload and the write-time metadata. -/
structure EntryExtra where
  context : Context
  durationMs : Option Int
deriving DecidableEq

/-- A persisted audit entry, as written by `writeEntry` with chain
validation enabled (the default configuration). -/
structure Entry (Hash : Type) where
  data : EntryData
  extra : EntryExtra
  previousHash : Option Hash
  hash : Hash
deriving DecidableEq

/-- The verdict of `verifyChain`: either the first broken linkage
(`entry.previousHash !== previousHash`, reported with its 1-based line
number), or the first recomputed-hash mismatch, or `valid:true` with
the number of entries. -/
inductive VerifyResult where
  | chainBroken (line : Nat)
  | hashMismatch (line : Nat)
  | valid (entries : Nat)
deriving DecidableEq

/-- The verification loop of `verifyChain`: `prev` is the running
`previousHash`, `line` the 1-based line number of the next entry and
`count` the entries validated so far. -/
def verifyChainGo {Hash : Type} [DecidableEq Hash] (H : EntryData → Option Hash → Hash) :
    List (Entry Hash) → Option Hash → Nat → Nat → VerifyResult
  | [], _, _, count => .valid count
  | e :: rest, prev, line, count =>
      if e.previousHash ≠ prev then .chainBroken line
      else if e.hash ≠ H e.data e.previousHash then .hashMismatch line
      else verifyChainGo H rest (some e.hash) (line + 1) (count + 1)

/-- `verifyChain(segment)` from `audit-logger.js`, on an in-memory
segment (a missing file and malformed JSON lines cannot arise in the
typed embedding). -/
def verifyChain {Hash : Type} [DecidableEq Hash] (H : EntryData → Option Hash → Hash)
    (entries : List (Entry Hash)) : VerifyResult :=
  verifyChainGo H entries none 1 0

/-- The write loop: each `writeEntry` sets `previousHash` to the
logger's `lastHash`, computes the entry hash over the hashed subset and
the new `previousHash`, and advances `lastHash`. -/
def writeSegmentGo {Hash : Type} (H : EntryData → Option Hash → Hash)
    (last : Option Hash) : List (EntryData × EntryExtra) → List (Entry Hash)
  | [] => []
  | (d, x) :: rest =>
      let h := H d last
      ⟨d, x, last, h⟩ :: writeSegmentGo H (some h) rest

/-- A fresh segment written entirely through `writeEntry` with chain
validation enabled and no rotation in between (`lastHash` starts at
`null`). -/
def writeSegment {Hash : Type} (H : EntryData → Option Hash → Hash)
    (l : List (EntryData × EntryExtra)) : List (Entry Hash) :=
  writeSegmentGo H none l

theorem verifyChainGo_writeSegmentGo {Hash : Type} [DecidableEq Hash]
    (H : EntryData → Option Hash → Hash) (l : List (EntryData × EntryExtra))
    (p : Option Hash) (line count : Nat) :
    verifyChainGo H (writeSegmentGo H p l) p line count = .valid (count + l.length) := by
  induction l generalizing p line count with
  | nil => simp [writeSegmentGo, verifyChainGo]
  | cons hd tl ih =>
      obtain ⟨d, x⟩ := hd
      simp only [writeSegmentGo, verifyChainGo, ne_eq, not_true_eq_false, if_false,
        reduceIte, ih, List.length_cons]
      congr 1
      omega

theorem writeSegmentGo_hash_eq {Hash : Type} (H : EntryData → Option Hash → Hash)
    (l : List (EntryData × EntryExtra)) (p : Option Hash) :
    ∀ e ∈ writeSegmentGo H p l, e.hash = H e.data e.previousHash := by
  induction l generalizing p with
  | nil => intro e he; cases he
  | cons hd tl ih =>
      obtain ⟨d, x⟩ := hd
      intro e he
      rcases List.mem_cons.mp he with h | h
      · subst h; rfl
      · exact ih _ e h

theorem writeSegmentGo_chain {Hash : Type} (H : EntryData → Option Hash → Hash)
    (l : List (EntryData × EntryExtra)) (p : Option Hash) :
    List.Chain' (fun a b => b.previousHash = some a.hash) (writeSegmentGo H p l) := by
  induction l generalizing p with
  | nil => exact List.chain'_nil
  | cons hd tl ih =>
      obtain ⟨d, x⟩ := hd
      cases tl with
      | nil => simp [writeSegmentGo]
      | cons hd2 tl2 =>
          obtain ⟨d2, x2⟩ := hd2
          refine List.Chain'.cons ?_ (ih (some (H d p)))
          rfl

/-- **C7.** Hash-chain round trip: for every segment written entirely
through `writeEntry` with chain validation enabled and no rotation in
between, every entry satisfies
`hash = H(type, timestamp, agentId, action, decision, previousHash)`,
the `previousHash` of each entry equals the hash of its predecessor
(`null` for the first entry of the segment), and `verifyChain` on the
segment returns valid with the number of entries. -/
theorem C7_hash_chain_round_trip {Hash : Type} [DecidableEq Hash]
    (H : EntryData → Option Hash → Hash) (l : List (EntryData × EntryExtra)) :
    verifyChain H (writeSegment H l) = .valid l.length
    ∧ (∀ e, (writeSegment H l).head? = some e → e.previousHash = none)
    ∧ List.Chain' (fun a b => b.previousHash = some a.hash) (writeSegment H l)
    ∧ (∀ e ∈ writeSegment H l, e.hash = H e.data e.previousHash) := by
  refine ⟨?_, ?_, writeSegmentGo_chain H l none, writeSegmentGo_hash_eq H l none⟩
  · have h := verifyChainGo_writeSegmentGo H l none 1 0
    simpa [verifyChain, writeSegment] using h
  · intro e he
    cases l with
    | nil => simp [writeSegment, writeSegmentGo] at he
    | cons hd tl =>
        obtain ⟨d, x⟩ := hd
        simp only [writeSegment, writeSegmentGo, List.head?_cons, Option.some.injEq] at he
        rw [← he]

/-- A concrete hash domain for closed instances of the chain theorems:
`chainHash` is injective by construction, standing in for
"JSON-serialize the hashed subset and apply SHA-256" (whose injectivity
is exactly SHA-256's collision-freeness on these serializations). -/
def chainHash (d : EntryData) (p : Option (List (Option EntryData))) :
    List (Option EntryData) :=
  match p with
  | none => [some d]
  | some l => some d :: none :: l

theorem chainHash_injective (d1 d2 : EntryData) (p1 p2 : Option (List (Option EntryData)))
    (h : chainHash d1 p1 = chainHash d2 p2) : d1 = d2 ∧ p1 = p2 := by
  cases p1 with
  | none =>
      cases p2 with
      | none =>
          simp only [chainHash, List.cons.injEq, Option.some.injEq, and_true] at h
          exact ⟨h, rfl⟩
      | some l2 => simp [chainHash] at h
  | some l1 =>
      cases p2 with
      | none => simp [chainHash] at h
      | some l2 =>
          simp only [chainHash, List.cons.injEq, Option.some.injEq] at h
          exact ⟨h.1, by rw [h.2.2]⟩

/-- Witness for `C7_hash_chain_round_trip`: a freshly written two-entry
segment verifies as valid, and its second entry's hash recomputes. -/
theorem C7_hash_chain_round_trip_witness :
    verifyChain chainHash (writeSegment chainHash
      [(⟨EntryType.policyDecision, strL "t1", strL "a", strL "read:x", none⟩, ⟨[], some 0⟩),
       (⟨EntryType.agentAction, strL "t2", strL "a", strL "read:x", none⟩, ⟨[], none⟩)])
      = .valid 2
    ∧ (∀ e ∈ writeSegment chainHash
        [(⟨EntryType.policyDecision, strL "t1", strL "a", strL "read:x", none⟩, ⟨[], some 0⟩),
         (⟨EntryType.agentAction, strL "t2", strL "a", strL "read:x", none⟩, ⟨[], none⟩)],
        e.hash = chainHash e.data e.previousHash) :=
  ⟨(C7_hash_chain_round_trip chainHash
      [(⟨EntryType.policyDecision, strL "t1", strL "a", strL "read:x", none⟩, ⟨[], some 0⟩),
       (⟨EntryType.agentAction, strL "t2", strL "a", strL "read:x", none⟩, ⟨[], none⟩)]).1,
   (C7_hash_chain_round_trip chainHash
      [(⟨EntryType.policyDecision, strL "t1", strL "a", strL "read:x", none⟩, ⟨[], some 0⟩),
       (⟨EntryType.agentAction, strL "t2", strL "a", strL "read:x", none⟩, ⟨[], none⟩)]).2.2.2⟩

theorem verifyChainGo_set_data_mismatch {Hash : Type} [DecidableEq Hash]
    (H : EntryData → Option Hash → Hash)
    (hinj : ∀ d1 d2 p, H d1 p = H d2 p → d1 = d2) :
    ∀ (l : List (EntryData × EntryExtra)) (p : Option Hash) (line count i : Nat)
      (e : Entry Hash) (d2 : EntryData),
      (writeSegmentGo H p l)[i]? = some e → d2 ≠ e.data →
      verifyChainGo H ((writeSegmentGo H p l).set i ⟨d2, e.extra, e.previousHash, e.hash⟩)
          p line count
        = .hashMismatch (line + i) := by
  intro l
  induction l with
  | nil =>
      intro p line count i e d2 he
      simp [writeSegmentGo] at he
  | cons hd tl ih =>
      obtain ⟨d, x⟩ := hd
      intro p line count i e d2 he hne
      cases i with
      | zero =>
          simp only [writeSegmentGo, List.getElem?_cons_zero, Option.some.injEq] at he
          subst he
          have hhne : ¬ (H d p = H d2 p) := fun hh => hne ((hinj d2 d p hh.symm))
          simp only [writeSegmentGo, List.set_cons_zero, verifyChainGo, ne_eq]
          rw [if_neg (by simp), if_pos hhne]
          simp
      | succ i =>
          simp only [writeSegmentGo, List.getElem?_cons_succ] at he
          simp only [writeSegmentGo, List.set_cons_succ, verifyChainGo, ne_eq,
            not_true_eq_false, if_false, reduceIte]
          rw [ih (some (H d p)) (line + 1) (count + 1) i e d2 he hne]
          congr 1
          omega

theorem verifyChainGo_set_extra_valid {Hash : Type} [DecidableEq Hash]
    (H : EntryData → Option Hash → Hash) :
    ∀ (l : List (EntryData × EntryExtra)) (p : Option Hash) (line count i : Nat)
      (e : Entry Hash) (x2 : EntryExtra),
      (writeSegmentGo H p l)[i]? = some e →
      verifyChainGo H ((writeSegmentGo H p l).set i ⟨e.data, x2, e.previousHash, e.hash⟩)
          p line count
        = .valid (count + l.length) := by
  intro l
  induction l with
  | nil =>
      intro p line count i e x2 he
      simp [writeSegmentGo] at he
  | cons hd tl ih =>
      obtain ⟨d, x⟩ := hd
      intro p line count i e x2 he
      cases i with
      | zero =>
          simp only [writeSegmentGo, List.getElem?_cons_zero, Option.some.injEq] at he
          subst he
          simp only [writeSegmentGo, List.set_cons_zero, verifyChainGo, ne_eq,
            not_true_eq_false, if_false, reduceIte]
          rw [verifyChainGo_writeSegmentGo]
          congr 1
          simp only [List.length_cons]
          omega
      | succ i =>
          simp only [writeSegmentGo, List.getElem?_cons_succ] at he
          simp only [writeSegmentGo, List.set_cons_succ, verifyChainGo, ne_eq,
            not_true_eq_false, if_false, reduceIte]
          rw [ih (some (H d p)) (line + 1) (count + 1) i e x2 he]
          congr 1
          simp only [List.length_cons]
          omega

/-- The hashed subset of a concrete policy-decision entry, used by the
closed chain counterexamples and witnesses. -/
def cexData : EntryData :=
  ⟨EntryType.policyDecision, strL "2026-10-12T00:00:00Z", strL "agent-a", strL "read:x",
    some ⟨true, false, none, Reason.allowedBy (strL "read:*")⟩⟩

/-- The claim of C2 is false on the code: the sanitized `context` (and
`durationMs`, `timestampUnix`, `result`, …) of an entry are logged but
not covered by `hashEntry`, so mutating a byte of them leaves
`verifyChain` reporting valid:true.  Here a freshly written one-entry
segment verifies as valid, and so does the same segment with the
entry's logged `context` value mutated from `1` to `2`. -/
theorem C2_tamper_counterexample :
    verifyChain chainHash
        (writeSegment chainHash [(cexData, ⟨[(strL "k", JSVal.num 1)], some 0⟩)])
      = .valid 1
    ∧ (writeSegment chainHash [(cexData, ⟨[(strL "k", JSVal.num 1)], some 0⟩)]).set 0
        ⟨cexData, ⟨[(strL "k", JSVal.num 2)], some 0⟩, none, chainHash cexData none⟩
      ≠ writeSegment chainHash [(cexData, ⟨[(strL "k", JSVal.num 1)], some 0⟩)]
    ∧ verifyChain chainHash
        ((writeSegment chainHash [(cexData, ⟨[(strL "k", JSVal.num 1)], some 0⟩)]).set 0
          ⟨cexData, ⟨[(strL "k", JSVal.num 2)], some 0⟩, none, chainHash cexData none⟩)
      = .valid 1 := by
  refine ⟨by decide, by decide, by decide⟩

/-- **C2 (amended).** For a segment written through `writeEntry` with
chain validation enabled: mutating an entry's *hash-covered* logged
fields (`type`, `timestamp`, `agentId`, `action`, `decision` — any
change whatever, in particular any single byte) causes `verifyChain` to
return invalid, identifying the offending entry's 1-based position,
provided the hash is collision-free on the hashed serializations;
whereas mutating the logged fields *outside* the hashed subset
(sanitized `context`, `durationMs`, …) is never detected: `verifyChain`
still returns valid with the full entry count. -/
theorem C2_tamper_detection {Hash : Type} [DecidableEq Hash]
    (H : EntryData → Option Hash → Hash)
    (hinj : ∀ d1 d2 p, H d1 p = H d2 p → d1 = d2)
    (l : List (EntryData × EntryExtra)) (i : Nat) (e : Entry Hash) :
    ((writeSegment H l)[i]? = some e →
      ∀ d2 : EntryData, d2 ≠ e.data →
        verifyChain H ((writeSegment H l).set i ⟨d2, e.extra, e.previousHash, e.hash⟩)
          = .hashMismatch (i + 1))
    ∧ ((writeSegment H l)[i]? = some e →
      ∀ x2 : EntryExtra,
        verifyChain H ((writeSegment H l).set i ⟨e.data, x2, e.previousHash, e.hash⟩)
          = .valid l.length) := by
  constructor
  · intro he d2 hne
    have h := verifyChainGo_set_data_mismatch H hinj l none 1 0 i e d2 he hne
    rw [verifyChain, writeSegment] at *
    rw [h]
    congr 1
    omega
  · intro he x2
    have h := verifyChainGo_set_extra_valid H l none 1 0 i e x2 he
    rw [verifyChain, writeSegment] at *
    rw [h]
    congr 1
    omega

/-- Witness for `C2_tamper_detection`: flipping one byte of the
`action` of the first entry of a concrete two-entry segment is reported
as a hash mismatch at line 1, while changing that entry's unhashed
`durationMs` keeps the segment valid. -/
theorem C2_tamper_detection_witness :
    verifyChain chainHash
        ((writeSegment chainHash [(cexData, ⟨[], some 0⟩),
            (⟨EntryType.agentAction, strL "t2", strL "agent-a", strL "read:x", none⟩, ⟨[], none⟩)]).set 0
          ⟨⟨EntryType.policyDecision, strL "2026-10-12T00:00:00Z", strL "agent-a", strL "read:y",
              some ⟨true, false, none, Reason.allowedBy (strL "read:*")⟩⟩,
            ⟨[], some 0⟩, none, chainHash cexData none⟩)
      = .hashMismatch 1
    ∧ verifyChain chainHash
        ((writeSegment chainHash [(cexData, ⟨[], some 0⟩),
            (⟨EntryType.agentAction, strL "t2", strL "agent-a", strL "read:x", none⟩, ⟨[], none⟩)]).set 0
          ⟨cexData, ⟨[], some 99⟩, none, chainHash cexData none⟩)
      = .valid 2 :=
  ⟨(C2_tamper_detection chainHash
      (fun d1 d2 p h => (chainHash_injective d1 d2 p p h).1)
      [(cexData, ⟨[], some 0⟩),
       (⟨EntryType.agentAction, strL "t2", strL "agent-a", strL "read:x", none⟩, ⟨[], none⟩)]
      0 ⟨cexData, ⟨[], some 0⟩, none, chainHash cexData none⟩).1
    (by decide)
    ⟨EntryType.policyDecision, strL "2026-10-12T00:00:00Z", strL "agent-a", strL "read:y",
      some ⟨true, false, none, Reason.allowedBy (strL "read:*")⟩⟩
    (by decide),
   (C2_tamper_detection chainHash
      (fun d1 d2 p h => (chainHash_injective d1 d2 p p h).1)
      [(cexData, ⟨[], some 0⟩),
       (⟨EntryType.agentAction, strL "t2", strL "agent-a", strL "read:x", none⟩, ⟨[], none⟩)]
      0 ⟨cexData, ⟨[], some 0⟩, none, chainHash cexData none⟩).2
    (by decide) (⟨[], some 99⟩ : EntryExtra)⟩

/-! ## Identity system (`identity-system.js`)

State-passing embedding of the identity registry: every operation
returns its result together with the updated registry state and the
audit events it emitted through the audit logger.  Signature
verification (`crypto.createVerify`) is abstracted into an oracle
`Str → JSVal → JSVal → Bool` taking the stored public key, the message
and the signature.  Timestamps (`lastVerified`, history timestamps) and
the on-disk `saveIdentity` mirror are outside the model domain. -/

/-- The `status` field of an identity. -/
inductive IdStatus where
  | active
  | revoked
deriving DecidableEq

/-- One element of `verificationHistory` (its timestamp is outside the
model domain). -/
structure VHEntry where
  usedSignature : Bool
  success : Bool
deriving DecidableEq

/-- A stored agent identity (key material other than the public key,
metadata and timestamps are outside the model domain: no claim inspects
them). -/
structure Identity where
  agentId : Str
  publicKey : Str
  status : IdStatus
  trustScore : Int
  verificationHistory : List VHEntry
deriving DecidableEq

/-- The identity registry state: the `identities` map and the
`trustScores` map. -/
structure IdSys where
  identities : List (Str × Identity)
  trustScores : List (Str × Int)
deriving DecidableEq

/-- Which branch of `verifyIdentity`/`revokeIdentity` produced a
verification result; carries the information of the `reason` string. -/
inductive VReason where
  | notFound
  | isRevoked
  | invalidSignature
  | trustTooLow
  | verifiedOk
  | revokedNote
deriving DecidableEq

/-- The result record of `verifyIdentity`:
`{verified, reason, trustScore}`. -/
structure VerifyIdResult where
  verified : Bool
  reason : VReason
  trustScore : Int
deriving DecidableEq

/-- The `verificationType` field of an `identity_verification` entry. -/
inductive VType where
  | identityCheck
  | signatureVerification
  | trustScoreCheck
  | revocation
deriving DecidableEq

/-- An audit event as handed to the audit logger (the payload fields
each logging helper records). -/
inductive AuditEvent where
  | policyDecisionEv (agentId action : Str) (ctx : Context) (decision : Decision)
  | agentActionEv (agentId action : Str) (details : Context) (success : Bool)
  | escalationEv (agentId action : Str) (ctx : Context) (escalationId : Nat)
  | escalationResolutionEv (escalationId : Nat)
  | identityVerificationEv (agentId : Str) (vtype : VType) (result : VerifyIdResult)
deriving DecidableEq

/-- Whether an audit event is an `identity_verification` entry. -/
def isIdentityVerificationEv : AuditEvent → Bool
  | .identityVerificationEv _ _ _ => true
  | _ => false

/-- `getTrustScore(agentId)`: `this.trustScores.get(agentId) || 0`. -/
def getTrustScore (st : IdSys) (a : Str) : Int :=
  (lookupMap st.trustScores a).getD 0

/-- Store a new score in the `trustScores` map and mirror it into the
identity record when one exists (the common tail of the two
trust-score operations). -/
def setScore (st : IdSys) (a : Str) (ns : Int) : IdSys :=
  let ids :=
    match lookupMap st.identities a with
    | some id => mapSet st.identities a { id with trustScore := ns }
    | none => st.identities
  ⟨ids, mapSet st.trustScores a ns⟩

/-- `incrementTrustScore(agentId, amount, reason)`:
`newScore = min(100, current + amount)`.  (Emits no audit events.) -/
def incrementTrustScore (st : IdSys) (a : Str) (amount : Int) : IdSys :=
  setScore st a (min 100 (getTrustScore st a + amount))

/-- `revokeIdentity(agentId, reason)`: set status to revoked, zero the
trust score, and log an `identity_verification` entry of
verification type `revocation`.  In the source a missing identity
throws; the embedding returns the state unchanged in that case (every
call site in this development has the identity present). -/
def revokeIdentity (st : IdSys) (a : Str) : IdSys × List AuditEvent :=
  match lookupMap st.identities a with
  | none => (st, [])
  | some id =>
      (⟨mapSet st.identities a { id with status := IdStatus.revoked },
        mapSet st.trustScores a 0⟩,
       [AuditEvent.identityVerificationEv a VType.revocation ⟨false, VReason.revokedNote, 0⟩])

/-- `decrementTrustScore(agentId, amount, reason)`:
`newScore = max(0, current - amount)`; reaching exactly `0`
auto-revokes the identity. -/
def decrementTrustScore (st : IdSys) (a : Str) (amount : Int) : IdSys × List AuditEvent :=
  let ns := max 0 (getTrustScore st a - amount)
  let st2 := setScore st a ns
  if ns = 0 then revokeIdentity st2 a else (st2, [])

/-- Verification credentials: the optional `signature` and `message`
properties of the credentials object. -/
structure Credentials where
  signature : Option JSVal
  message : Option JSVal
deriving DecidableEq

/-- Truthiness of an optional credentials property. -/
def optTruthy : Option JSVal → Bool
  | some v => jsTruthy v
  | none => false

/-- The tail of `verifyIdentity` after the signature branch: the
trust-score gate, then the successful verification (history push with
a cap of 100, result `verified:true`). -/
def verifyTrustPhase (st : IdSys) (a : Str) (id : Identity) (usedSig : Bool) :
    VerifyIdResult × IdSys × List AuditEvent :=
  let trust := getTrustScore st a
  if trust < 50 then
    (⟨false, VReason.trustTooLow, trust⟩, st,
     [AuditEvent.identityVerificationEv a VType.trustScoreCheck
        ⟨false, VReason.trustTooLow, trust⟩])
  else
    let hist := id.verificationHistory ++ [⟨usedSig, true⟩]
    let hist2 := if 100 < hist.length then hist.drop (hist.length - 100) else hist
    let id2 := { id with verificationHistory := hist2 }
    (⟨true, VReason.verifiedOk, trust⟩,
     ⟨mapSet st.identities a id2, st.trustScores⟩,
     [AuditEvent.identityVerificationEv a VType.identityCheck
        ⟨true, VReason.verifiedOk, trust⟩])

/-- `verifyIdentity(agentId, credentials)` from `identity-system.js`:
unknown agent, revoked identity, failed signature verification (with a
10-point trust decrement), the trust-score gate, then success.
`sigOk` is the signature-verification oracle. -/
def verifyIdentity (sigOk : Str → JSVal → JSVal → Bool) (st : IdSys) (a : Str)
    (creds : Credentials) : VerifyIdResult × IdSys × List AuditEvent :=
  match lookupMap st.identities a with
  | none =>
      (⟨false, VReason.notFound, 0⟩, st,
       [AuditEvent.identityVerificationEv a VType.identityCheck ⟨false, VReason.notFound, 0⟩])
  | some id =>
      if id.status = IdStatus.revoked then
        (⟨false, VReason.isRevoked, 0⟩, st,
         [AuditEvent.identityVerificationEv a VType.identityCheck
            ⟨false, VReason.isRevoked, 0⟩])
      else
        match creds.signature, creds.message with
        | some s, some m =>
            if jsTruthy s && jsTruthy m then
              if sigOk id.publicKey m s then
                verifyTrustPhase st a id (optTruthy (some s))
              else
                let p := decrementTrustScore st a 10
                let res : VerifyIdResult :=
                  ⟨false, VReason.invalidSignature, getTrustScore p.1 a⟩
                (res, p.1,
                 p.2 ++ [AuditEvent.identityVerificationEv a VType.signatureVerification res])
            else verifyTrustPhase st a id (optTruthy creds.signature)
        | _, _ => verifyTrustPhase st a id (optTruthy creds.signature)

theorem getTrustScore_setScore_same (st : IdSys) (a : Str) (ns : Int) :
    getTrustScore (setScore st a ns) a = ns := by
  unfold getTrustScore setScore
  cases h : lookupMap st.identities a <;> simp [lookupMap_mapSet_same]

/-- The state relation "every identity recorded as revoked stays
recorded as revoked". -/
def keepsRevoked (st st2 : IdSys) : Prop :=
  ∀ b id, lookupMap st.identities b = some id → id.status = IdStatus.revoked →
    ∃ id2, lookupMap st2.identities b = some id2 ∧ id2.status = IdStatus.revoked

theorem keepsRevoked_rfl (st : IdSys) : keepsRevoked st st :=
  fun _ id hb hr => ⟨id, hb, hr⟩

theorem keepsRevoked_trans {st st2 st3 : IdSys}
    (h1 : keepsRevoked st st2) (h2 : keepsRevoked st2 st3) : keepsRevoked st st3 := by
  intro b id hb hr
  obtain ⟨id2, hb2, hr2⟩ := h1 b id hb hr
  exact h2 b id2 hb2 hr2

theorem keepsRevoked_setScore (st : IdSys) (a : Str) (ns : Int) :
    keepsRevoked st (setScore st a ns) := by
  intro b id hb hr
  unfold setScore
  cases hA : lookupMap st.identities a with
  | none => exact ⟨id, hb, hr⟩
  | some ida =>
      by_cases hba : b = a
      · subst hba
        rw [hb] at hA
        cases hA
        exact ⟨{ id with trustScore := ns }, lookupMap_mapSet_same _ _ _, hr⟩
      · rw [lookupMap_mapSet_other _ _ _ _ hba]
        exact ⟨id, hb, hr⟩

theorem keepsRevoked_revoke (st : IdSys) (a : Str) :
    keepsRevoked st (revokeIdentity st a).1 := by
  intro b id hb hr
  unfold revokeIdentity
  cases hA : lookupMap st.identities a with
  | none => exact ⟨id, hb, hr⟩
  | some ida =>
      by_cases hba : b = a
      · subst hba
        exact ⟨{ ida with status := IdStatus.revoked }, lookupMap_mapSet_same _ _ _, rfl⟩
      · rw [lookupMap_mapSet_other _ _ _ _ hba]
        exact ⟨id, hb, hr⟩

theorem keepsRevoked_decrement (st : IdSys) (a : Str) (amount : Int) :
    keepsRevoked st (decrementTrustScore st a amount).1 := by
  unfold decrementTrustScore
  by_cases h : max 0 (getTrustScore st a - amount) = 0
  · simp only [h, if_pos rfl]
    exact keepsRevoked_trans (keepsRevoked_setScore st a _) (keepsRevoked_revoke _ a)
  · simp only [if_neg h]
    exact keepsRevoked_setScore st a _

theorem keepsRevoked_increment (st : IdSys) (a : Str) (amount : Int) :
    keepsRevoked st (incrementTrustScore st a amount) :=
  keepsRevoked_setScore st a _

theorem keepsRevoked_trustPhase (st : IdSys) (a : Str) (id : Identity) (usedSig : Bool)
    (hid : lookupMap st.identities a = some id) :
    keepsRevoked st (verifyTrustPhase st a id usedSig).2.1 := by
  unfold verifyTrustPhase
  by_cases h : getTrustScore st a < 50
  · simp only [if_pos h]
    exact keepsRevoked_rfl st
  · simp only [if_neg h]
    intro b idb hb hr
    by_cases hba : b = a
    · subst hba
      rw [hb] at hid
      cases hid
      refine ⟨_, lookupMap_mapSet_same _ _ _, ?_⟩
      simpa using hr
    · rw [lookupMap_mapSet_other _ _ _ _ hba]
      exact ⟨idb, hb, hr⟩

theorem keepsRevoked_verify (sigOk : Str → JSVal → JSVal → Bool) (st : IdSys) (a : Str)
    (creds : Credentials) : keepsRevoked st (verifyIdentity sigOk st a creds).2.1 := by
  unfold verifyIdentity
  cases hA : lookupMap st.identities a with
  | none => exact keepsRevoked_rfl st
  | some id =>
      by_cases hrev : id.status = IdStatus.revoked
      · simp only [if_pos hrev]
        exact keepsRevoked_rfl st
      · simp only [if_neg hrev]
        cases hs : creds.signature with
        | none => exact keepsRevoked_trustPhase st a id _ hA
        | some s =>
            cases hm : creds.message with
            | none => exact keepsRevoked_trustPhase st a id _ hA
            | some m =>
                by_cases ht : jsTruthy s && jsTruthy m
                · by_cases hsig : sigOk id.publicKey m s
                  · simp only [if_pos ht, if_pos hsig]
                    exact keepsRevoked_trustPhase st a id _ hA
                  · simp only [if_pos ht, if_neg hsig]
                    exact keepsRevoked_decrement st a 10
                · simp only [if_neg ht]
                  exact keepsRevoked_trustPhase st a id _ hA

/-- **C3.** The stored trust score never leaves `[0,100]` under
`incrementTrustScore` and `decrementTrustScore` (both clamp, for the
source's nonnegative adjustment amounts); a decrement that brings the
stored score to exactly `0` sets the identity's status to revoked; a
revoked status survives every trust-score operation, every revocation
and every `verifyIdentity` (revocation is terminal); and
`verifyIdentity` on a revoked identity returns
`verified:false, trustScore:0` — also after any later trust-score
increase. -/
theorem C3_trust_score_invariants (sigOk : Str → JSVal → JSVal → Bool)
    (st : IdSys) (a : Str) (amount : Int) :
    (0 ≤ amount → 0 ≤ getTrustScore st a → getTrustScore st a ≤ 100 →
      0 ≤ getTrustScore (incrementTrustScore st a amount) a
        ∧ getTrustScore (incrementTrustScore st a amount) a ≤ 100)
    ∧ (0 ≤ amount → 0 ≤ getTrustScore st a → getTrustScore st a ≤ 100 →
      0 ≤ getTrustScore (decrementTrustScore st a amount).1 a
        ∧ getTrustScore (decrementTrustScore st a amount).1 a ≤ 100)
    ∧ (∀ id, lookupMap st.identities a = some id →
      getTrustScore (decrementTrustScore st a amount).1 a = 0 →
      ∃ id2, lookupMap (decrementTrustScore st a amount).1.identities a = some id2
        ∧ id2.status = IdStatus.revoked)
    ∧ keepsRevoked st (incrementTrustScore st a amount)
    ∧ keepsRevoked st (decrementTrustScore st a amount).1
    ∧ keepsRevoked st (revokeIdentity st a).1
    ∧ (∀ creds, keepsRevoked st (verifyIdentity sigOk st a creds).2.1)
    ∧ (∀ id creds, lookupMap st.identities a = some id → id.status = IdStatus.revoked →
      (verifyIdentity sigOk st a creds).1 = ⟨false, VReason.isRevoked, 0⟩)
    ∧ (∀ id creds amount2, lookupMap st.identities a = some id →
      id.status = IdStatus.revoked →
      (verifyIdentity sigOk (incrementTrustScore st a amount2) a creds).1
        = ⟨false, VReason.isRevoked, 0⟩) := by
  have hrevResult : ∀ (st2 : IdSys) (id : Identity) (creds : Credentials),
      lookupMap st2.identities a = some id → id.status = IdStatus.revoked →
      (verifyIdentity sigOk st2 a creds).1 = ⟨false, VReason.isRevoked, 0⟩ := by
    intro st2 id creds hid hrev
    unfold verifyIdentity
    rw [hid]
    simp [hrev]
  refine ⟨?_, ?_, ?_, keepsRevoked_increment st a amount, keepsRevoked_decrement st a amount,
    keepsRevoked_revoke st a, fun creds => keepsRevoked_verify sigOk st a creds,
    fun id creds hid hrev => hrevResult st id creds hid hrev, ?_⟩
  · intro h0 hlo hhi
    unfold incrementTrustScore
    rw [getTrustScore_setScore_same]
    omega
  · intro h0 hlo hhi
    unfold decrementTrustScore
    by_cases h : max 0 (getTrustScore st a - amount) = 0
    · simp only [h, if_pos rfl]
      unfold revokeIdentity
      cases hA : lookupMap (setScore st a 0).identities a with
      | none =>
          simp only [hA]
          have hts := getTrustScore_setScore_same st a 0
          constructor <;> simp [hts]
      | some ida =>
          simp only [hA]
          constructor <;> simp [getTrustScore, lookupMap_mapSet_same]
    · simp only [if_neg h]
      rw [getTrustScore_setScore_same]
      omega
  · intro id hid hzero
    unfold decrementTrustScore at hzero ⊢
    by_cases h : max 0 (getTrustScore st a - amount) = 0
    · simp only [h, if_pos rfl] at hzero ⊢
      have hid2 : lookupMap (setScore st a 0).identities a
          = some { id with trustScore := (0 : Int) } := by
        unfold setScore
        rw [hid]
        simpa using lookupMap_mapSet_same st.identities a { id with trustScore := (0 : Int) }
      unfold revokeIdentity
      rw [hid2]
      exact ⟨_, lookupMap_mapSet_same _ _ _, rfl⟩
    · simp only [if_neg h] at hzero
      rw [getTrustScore_setScore_same] at hzero
      exact absurd hzero h
  · intro id creds amount2 hid hrev
    obtain ⟨id2, hid2, hrev2⟩ :=
      keepsRevoked_increment st a amount2 a id hid hrev
    exact hrevResult _ id2 creds hid2 hrev2

/-- Witness for `C3_trust_score_invariants`: an increment of 5 on a
concrete healthy registry stays in `[0,100]`, and `verifyIdentity` on a
concrete revoked identity fails with trust score 0. -/
theorem C3_trust_score_invariants_witness :
    (0 ≤ getTrustScore (incrementTrustScore
        ⟨[(strL "a", ⟨strL "a", strL "pk", IdStatus.active, 100, []⟩)], [(strL "a", 100)]⟩
        (strL "a") 5) (strL "a")
      ∧ getTrustScore (incrementTrustScore
        ⟨[(strL "a", ⟨strL "a", strL "pk", IdStatus.active, 100, []⟩)], [(strL "a", 100)]⟩
        (strL "a") 5) (strL "a") ≤ 100)
    ∧ (verifyIdentity (fun _ _ _ => true)
        ⟨[(strL "a", ⟨strL "a", strL "pk", IdStatus.revoked, 0, []⟩)], [(strL "a", 0)]⟩
        (strL "a") ⟨none, none⟩).1 = ⟨false, VReason.isRevoked, 0⟩ :=
  ⟨(C3_trust_score_invariants (fun _ _ _ => true)
      ⟨[(strL "a", ⟨strL "a", strL "pk", IdStatus.active, 100, []⟩)], [(strL "a", 100)]⟩
      (strL "a") 5).1 (by decide) (by decide) (by decide),
   (C3_trust_score_invariants (fun _ _ _ => true)
      ⟨[(strL "a", ⟨strL "a", strL "pk", IdStatus.revoked, 0, []⟩)], [(strL "a", 0)]⟩
      (strL "a") 5).2.2.2.2.2.2.2.1
      ⟨strL "a", strL "pk", IdStatus.revoked, 0, []⟩ ⟨none, none⟩ (by decide) rfl⟩

/-! ### C8: audit events emitted by `verifyIdentity` -/

/-- The number of `identity_verification` events in a trace. -/
def countIV (evs : List AuditEvent) : Nat :=
  evs.countP isIdentityVerificationEv

/-- The condition under which a `verifyIdentity` call emits *two*
`identity_verification` entries: the identity exists and is active, a
truthy signature and message are supplied, the signature check fails,
and the 10-point decrement drives the trust score to exactly 0, so the
automatic revocation logs its own entry before the
`signature_verification` entry. -/
def doubleLogs (sigOk : Str → JSVal → JSVal → Bool) (st : IdSys) (a : Str)
    (creds : Credentials) : Bool :=
  match lookupMap st.identities a with
  | none => false
  | some id =>
      if id.status = IdStatus.revoked then false
      else
        match creds.signature, creds.message with
        | some s, some m =>
            if jsTruthy s && jsTruthy m then
              if sigOk id.publicKey m s then false
              else decide (getTrustScore st a ≤ 10)
            else false
        | _, _ => false

/-- The claim of C8 is false on the code: a concrete `verifyIdentity`
call — active identity at trust score 10, truthy credentials, failing
signature — emits two `identity_verification` entries (the automatic
revocation's entry plus the `signature_verification` entry), not
exactly one. -/
theorem C8_exactly_one_entry_counterexample :
    countIV (verifyIdentity (fun _ _ _ => false)
        ⟨[(strL "a", ⟨strL "a", strL "pk", IdStatus.active, 10, []⟩)], [(strL "a", 10)]⟩
        (strL "a") ⟨some (JSVal.str (strL "sig")), some (JSVal.str (strL "msg"))⟩).2.2
      = 2 := by
  decide

theorem countIV_decrement (st : IdSys) (a : Str) (amount : Int) :
    countIV (decrementTrustScore st a amount).2
      = if max 0 (getTrustScore st a - amount) = 0
          ∧ (lookupMap (setScore st a (max 0 (getTrustScore st a - amount))).identities a).isSome
        then 1 else 0 := by
  unfold decrementTrustScore
  by_cases h : max 0 (getTrustScore st a - amount) = 0
  · simp only [h, if_pos rfl]
    unfold revokeIdentity
    cases hA : lookupMap (setScore st a 0).identities a with
    | none => simp [hA, countIV]
    | some ida => simp [hA, countIV, isIdentityVerificationEv]
  · simp [h, countIV]

theorem lookup_setScore_isSome (st : IdSys) (a : Str) (ns : Int) :
    (lookupMap (setScore st a ns).identities a).isSome
      = (lookupMap st.identities a).isSome := by
  unfold setScore
  cases hA : lookupMap st.identities a with
  | none => simp [hA]
  | some ida => simp [hA, lookupMap_mapSet_same]

/-- **C8 (amended).** Every call to `verifyIdentity` emits exactly one
`identity_verification` entry — except when an invalid-signature
verification drives the trust score to exactly 0: the automatic
revocation then emits an additional `identity_verification` entry, for
two in total.  (`doubleLogs` states the exceptional condition.) -/
theorem C8_exactly_one_entry_amended (sigOk : Str → JSVal → JSVal → Bool) (st : IdSys)
    (a : Str) (creds : Credentials) :
    countIV (verifyIdentity sigOk st a creds).2.2
      = if doubleLogs sigOk st a creds then 2 else 1 := by
  unfold verifyIdentity doubleLogs
  cases hA : lookupMap st.identities a with
  | none => simp [countIV, isIdentityVerificationEv]
  | some id =>
      by_cases hrev : id.status = IdStatus.revoked
      · simp [hrev, countIV, isIdentityVerificationEv]
      · simp only [if_neg hrev]
        have htp : ∀ usedSig : Bool,
            countIV (verifyTrustPhase st a id usedSig).2.2 = 1 := by
          intro usedSig
          unfold verifyTrustPhase
          by_cases ht : getTrustScore st a < 50
          · simp [ht, countIV, isIdentityVerificationEv]
          · simp [ht, countIV, isIdentityVerificationEv]
        cases hs : creds.signature with
        | none => simp [htp]
        | some s =>
            cases hm : creds.message with
            | none => simp [htp]
            | some m =>
                by_cases htr : jsTruthy s && jsTruthy m
                · by_cases hsig : sigOk id.publicKey m s
                  · simp [htr, hsig, htp]
                  · simp only [htr, hsig, if_true, if_false, Bool.false_eq_true]
                    rw [countIV, List.countP_append, ← countIV]
                    rw [countIV_decrement, lookup_setScore_isSome, hA]
                    by_cases hz : max 0 (getTrustScore st a - 10) = 0
                    · have hle : getTrustScore st a ≤ 10 := by omega
                      simp [hz, hle, countIV, isIdentityVerificationEv]
                    · have hle : ¬ (getTrustScore st a ≤ 10) := by omega
                      simp [hz, hle, countIV, isIdentityVerificationEv]
                · simp [htr, htp]

/-! ## Production agent orchestrator (`production-agent.js`)

`execute(action, context, executor)` composed from the three
components.  `JSON.stringify(context)` (only ever used as the default
signed message) is abstracted as a `stringify` parameter, timestamps
(`Date.now()`, used as the escalation id) as a `now` parameter, and the
caller-supplied executor as an optional `Context → Except Str JSVal`
(exceptions thrown by the executor are the `Except.error` case, caught
by the source's inner try/catch).  The outer try/catch of the source is
unreachable in the embedding because every embedded component call is
total on the reachable states. -/

/-- The combined governed-system state. -/
structure SysState where
  idSys : IdSys
  policies : List (Str × Policy)

/-- The result object of `execute` (absent JS fields are `false`/
`none`). -/
structure ExecResult where
  success : Bool
  requiresEscalation : Bool
  policyDenied : Bool
  escalationId : Option Nat
  escalationRule : Option EscRule
  output : Option JSVal
  trustScore : Option Int
deriving DecidableEq

/-- The credentials `ProductionAgent.verifyIdentity` builds from the
context: only when `requireSignature` is set and `context.signature` is
truthy; the message defaults to `JSON.stringify(context)` when
`context.message` is falsy. -/
def credsFor (requireSignature : Bool) (stringify : Context → Str) (ctx : Context) :
    Credentials :=
  if requireSignature && optTruthy (lookupMap ctx (strL "signature")) then
    ⟨lookupMap ctx (strL "signature"),
     match lookupMap ctx (strL "message") with
     | some v => if jsTruthy v then some v else some (JSVal.str (stringify ctx))
     | none => some (JSVal.str (stringify ctx))⟩
  else ⟨none, none⟩

/-- A caller-supplied executor. -/
abbrev TaskFn := Context → Except Str JSVal

/-- `ProductionAgent.execute(action, context, executor)`: verify
identity (early failure), check the policy (escalation, then denial),
run the executor, log the action, adjust the trust score. -/
def execute (sigOk : Str → JSVal → JSVal → Bool) (stringify : Context → Str)
    (requireSignature : Bool) (st : SysState) (a action : Str) (ctx : Context)
    (task : Option TaskFn) (now : Nat) : ExecResult × SysState × List AuditEvent :=
  let v := verifyIdentity sigOk st.idSys a (credsFor requireSignature stringify ctx)
  if v.1.verified then
    let dec := checkPermission st.policies a action ctx
    let evs2 := v.2.2 ++ [AuditEvent.policyDecisionEv a action (sanitizeContext ctx) dec]
    if dec.requiresEscalation then
      (⟨false, true, false, some now, dec.escalationRule, none, none⟩,
       ⟨v.2.1, st.policies⟩,
       evs2 ++ [AuditEvent.escalationEv a action (sanitizeContext ctx) now])
    else if dec.allowed then
      let tr : Bool × Option JSVal :=
        match task with
        | none => (true, none)
        | some f =>
            match f ctx with
            | .ok out => (true, some out)
            | .error _ => (false, none)
      let evs3 := evs2 ++ [AuditEvent.agentActionEv a action (sanitizeContext ctx) tr.1]
      let p2 :=
        if tr.1 then ((incrementTrustScore v.2.1 a 1 : IdSys), ([] : List AuditEvent))
        else decrementTrustScore v.2.1 a 5
      (⟨tr.1, false, false, none, none, tr.2, some (getTrustScore p2.1 a)⟩,
       ⟨p2.1, st.policies⟩, evs3 ++ p2.2)
    else
      (⟨false, false, true, none, none, none, none⟩, ⟨v.2.1, st.policies⟩, evs2)
  else
    (⟨false, false, false, none, none, none, some v.1.trustScore⟩,
     ⟨v.2.1, st.policies⟩, v.2.2)

/-- Whether an audit event is a `policy_decision` entry. -/
def isPolicyDecisionEv : AuditEvent → Bool
  | .policyDecisionEv _ _ _ _ => true
  | _ => false

/-- Whether an audit event is an `agent_action` entry. -/
def isAgentActionEv : AuditEvent → Bool
  | .agentActionEv _ _ _ _ => true
  | _ => false

theorem verify_trace_no_policy_no_action (sigOk : Str → JSVal → JSVal → Bool)
    (st : IdSys) (a : Str) (creds : Credentials) :
    (verifyIdentity sigOk st a creds).2.2.countP isPolicyDecisionEv = 0
    ∧ (verifyIdentity sigOk st a creds).2.2.countP isAgentActionEv = 0 := by
  have htp : ∀ (id : Identity) (usedSig : Bool),
      (verifyTrustPhase st a id usedSig).2.2.countP isPolicyDecisionEv = 0
      ∧ (verifyTrustPhase st a id usedSig).2.2.countP isAgentActionEv = 0 := by
    intro id usedSig
    unfold verifyTrustPhase
    by_cases ht : getTrustScore st a < 50
    · simp [ht, isPolicyDecisionEv, isAgentActionEv]
    · simp [ht, isPolicyDecisionEv, isAgentActionEv]
  have hdec : ∀ amount, (decrementTrustScore st a amount).2.countP isPolicyDecisionEv = 0
      ∧ (decrementTrustScore st a amount).2.countP isAgentActionEv = 0 := by
    intro amount
    unfold decrementTrustScore revokeIdentity
    by_cases h : max 0 (getTrustScore st a - amount) = 0
    · simp only [h, if_pos rfl]
      cases hA : lookupMap (setScore st a 0).identities a with
      | none => simp [hA]
      | some ida => simp [hA, isPolicyDecisionEv, isAgentActionEv]
    · simp [h]
  unfold verifyIdentity
  cases hA : lookupMap st.identities a with
  | none => simp [isPolicyDecisionEv, isAgentActionEv]
  | some id =>
      by_cases hrev : id.status = IdStatus.revoked
      · simp [hrev, isPolicyDecisionEv, isAgentActionEv]
      · simp only [if_neg hrev]
        cases hs : creds.signature with
        | none => exact htp id _
        | some s =>
            cases hm : creds.message with
            | none => exact htp id _
            | some m =>
                by_cases htr : jsTruthy s && jsTruthy m
                · by_cases hsig : sigOk id.publicKey m s
                  · simp only [htr, hsig, if_true]
                    exact htp id _
                  · simp only [htr, hsig, if_true, if_false, Bool.false_eq_true]
                    constructor <;>
                      simp [List.countP_append, (hdec 10).1, (hdec 10).2,
                        isPolicyDecisionEv, isAgentActionEv]
                · simp only [htr, Bool.false_eq_true, if_false]
                  exact htp id _

theorem verify_verified_trustScores (sigOk : Str → JSVal → JSVal → Bool)
    (st : IdSys) (a : Str) (creds : Credentials)
    (hv : (verifyIdentity sigOk st a creds).1.verified = true) :
    (verifyIdentity sigOk st a creds).2.1.trustScores = st.trustScores := by
  have htp : ∀ (id : Identity) (usedSig : Bool),
      (verifyTrustPhase st a id usedSig).2.1.trustScores = st.trustScores := by
    intro id usedSig
    unfold verifyTrustPhase
    by_cases ht : getTrustScore st a < 50
    · simp [ht]
    · simp [ht]
  unfold verifyIdentity at hv ⊢
  cases hA : lookupMap st.identities a with
  | none => simp [hA] at hv
  | some id =>
      rw [hA] at hv
      by_cases hrev : id.status = IdStatus.revoked
      · simp [hrev] at hv
      · simp only [if_neg hrev] at hv ⊢
        cases hs : creds.signature with
        | none => exact htp id _
        | some s =>
            cases hm : creds.message with
            | none => exact htp id _
            | some m =>
                rw [hs, hm] at hv
                by_cases htr : jsTruthy s && jsTruthy m
                · by_cases hsig : sigOk id.publicKey m s
                  · simp only [htr, hsig, if_true]
                    exact htp id _
                  · simp [htr, hsig] at hv
                · simp only [htr, Bool.false_eq_true, if_false] at hv ⊢
                  exact htp id _

/-- **C4.** The caller-supplied task runs only when identity
verification succeeds and the policy decision is allowed without
escalation.  If verification fails, `execute` returns failure, emits
no `policy_decision` and no `agent_action` entry (its trace is exactly
the verification's own trace), and its outcome is independent of both
the supplied task and the loaded policies (the policy engine is never
invoked).  If the decision requires escalation, `execute` returns
`{success:false, requiresEscalation:true}` with the escalation id and
the matched rule, independent of the task, with the trust scores
unchanged and no `agent_action` entry.  If the decision is not
allowed, `execute` returns `{success:false, policyDenied:true}`,
independent of the task, with the trust scores unchanged and no
`agent_action` entry. -/
theorem C4_execute_gating (sigOk : Str → JSVal → JSVal → Bool) (stringify : Context → Str)
    (reqSig : Bool) (st : SysState) (a action : Str) (ctx : Context)
    (task : Option TaskFn) (now : Nat) :
    ((verifyIdentity sigOk st.idSys a (credsFor reqSig stringify ctx)).1.verified = false →
      execute sigOk stringify reqSig st a action ctx task now
        = execute sigOk stringify reqSig st a action ctx none now
      ∧ (execute sigOk stringify reqSig st a action ctx task now).1.success = false
      ∧ (execute sigOk stringify reqSig st a action ctx task now).2.2
          = (verifyIdentity sigOk st.idSys a (credsFor reqSig stringify ctx)).2.2
      ∧ (execute sigOk stringify reqSig st a action ctx task now).2.2.countP
          isPolicyDecisionEv = 0
      ∧ (execute sigOk stringify reqSig st a action ctx task now).2.2.countP
          isAgentActionEv = 0
      ∧ (∀ pols2 : List (Str × Policy),
          (execute sigOk stringify reqSig ⟨st.idSys, pols2⟩ a action ctx task now).1
            = (execute sigOk stringify reqSig st a action ctx task now).1
          ∧ (execute sigOk stringify reqSig ⟨st.idSys, pols2⟩ a action ctx task now).2.1.idSys
            = (execute sigOk stringify reqSig st a action ctx task now).2.1.idSys
          ∧ (execute sigOk stringify reqSig ⟨st.idSys, pols2⟩ a action ctx task now).2.2
            = (execute sigOk stringify reqSig st a action ctx task now).2.2))
    ∧ ((verifyIdentity sigOk st.idSys a (credsFor reqSig stringify ctx)).1.verified = true →
        (checkPermission st.policies a action ctx).requiresEscalation = true →
      execute sigOk stringify reqSig st a action ctx task now
        = execute sigOk stringify reqSig st a action ctx none now
      ∧ (execute sigOk stringify reqSig st a action ctx task now).1
          = ⟨false, true, false, some now,
              (checkPermission st.policies a action ctx).escalationRule, none, none⟩
      ∧ (execute sigOk stringify reqSig st a action ctx task now).2.1.idSys.trustScores
          = st.idSys.trustScores
      ∧ (execute sigOk stringify reqSig st a action ctx task now).2.2.countP
          isAgentActionEv = 0)
    ∧ ((verifyIdentity sigOk st.idSys a (credsFor reqSig stringify ctx)).1.verified = true →
        (checkPermission st.policies a action ctx).requiresEscalation = false →
        (checkPermission st.policies a action ctx).allowed = false →
      execute sigOk stringify reqSig st a action ctx task now
        = execute sigOk stringify reqSig st a action ctx none now
      ∧ (execute sigOk stringify reqSig st a action ctx task now).1
          = ⟨false, false, true, none, none, none, none⟩
      ∧ (execute sigOk stringify reqSig st a action ctx task now).2.1.idSys.trustScores
          = st.idSys.trustScores
      ∧ (execute sigOk stringify reqSig st a action ctx task now).2.2.countP
          isAgentActionEv = 0) := by
  refine ⟨?_, ?_, ?_⟩
  · intro hv
    have htrace := verify_trace_no_policy_no_action sigOk st.idSys a
      (credsFor reqSig stringify ctx)
    refine ⟨by simp [execute, hv], by simp [execute, hv], by simp [execute, hv], ?_, ?_, ?_⟩
    · rw [show (execute sigOk stringify reqSig st a action ctx task now).2.2
          = (verifyIdentity sigOk st.idSys a (credsFor reqSig stringify ctx)).2.2
        from by simp [execute, hv]]
      exact htrace.1
    · rw [show (execute sigOk stringify reqSig st a action ctx task now).2.2
          = (verifyIdentity sigOk st.idSys a (credsFor reqSig stringify ctx)).2.2
        from by simp [execute, hv]]
      exact htrace.2
    · intro pols2
      refine ⟨by simp [execute, hv], by simp [execute, hv], by simp [execute, hv]⟩
  · intro hv hesc
    have hts := verify_verified_trustScores sigOk st.idSys a
      (credsFor reqSig stringify ctx) hv
    have htrace := verify_trace_no_policy_no_action sigOk st.idSys a
      (credsFor reqSig stringify ctx)
    refine ⟨by simp [execute, hv, hesc], by simp [execute, hv, hesc], ?_, ?_⟩
    · rw [show (execute sigOk stringify reqSig st a action ctx task now).2.1.idSys
          = (verifyIdentity sigOk st.idSys a (credsFor reqSig stringify ctx)).2.1
        from by simp [execute, hv, hesc]]
      exact hts
    · rw [show (execute sigOk stringify reqSig st a action ctx task now).2.2
          = (verifyIdentity sigOk st.idSys a (credsFor reqSig stringify ctx)).2.2
            ++ [AuditEvent.policyDecisionEv a action (sanitizeContext ctx)
                  (checkPermission st.policies a action ctx)]
            ++ [AuditEvent.escalationEv a action (sanitizeContext ctx) now]
        from by simp [execute, hv, hesc]]
      simp [List.countP_append, htrace.2, isAgentActionEv]
  · intro hv hesc hall
    have hts := verify_verified_trustScores sigOk st.idSys a
      (credsFor reqSig stringify ctx) hv
    have htrace := verify_trace_no_policy_no_action sigOk st.idSys a
      (credsFor reqSig stringify ctx)
    refine ⟨by simp [execute, hv, hesc, hall], by simp [execute, hv, hesc, hall], ?_, ?_⟩
    · rw [show (execute sigOk stringify reqSig st a action ctx task now).2.1.idSys
          = (verifyIdentity sigOk st.idSys a (credsFor reqSig stringify ctx)).2.1
        from by simp [execute, hv, hesc, hall]]
      exact hts
    · rw [show (execute sigOk stringify reqSig st a action ctx task now).2.2
          = (verifyIdentity sigOk st.idSys a (credsFor reqSig stringify ctx)).2.2
            ++ [AuditEvent.policyDecisionEv a action (sanitizeContext ctx)
                  (checkPermission st.policies a action ctx)]
        from by simp [execute, hv, hesc, hall]]
      simp [List.countP_append, htrace.2, isAgentActionEv]

/-- Witness for `C4_execute_gating` at concrete inputs: an unknown
agent's `execute` fails (scenario C), and a policy-denied `execute`
returns the policyDenied result (scenario A's denial step). -/
theorem C4_execute_gating_witness :
    (execute (fun _ _ _ => true) (fun _ => []) false ⟨⟨[], []⟩, []⟩
        (strL "a") (strL "read:x") [] (some (fun _ => Except.ok (JSVal.num 1))) 42).1.success
      = false
    ∧ (execute (fun _ _ _ => true) (fun _ => []) false
        ⟨⟨[(strL "a", ⟨strL "a", strL "pk", IdStatus.active, 100, []⟩)], [(strL "a", 100)]⟩,
         [(strL "a", ⟨strL "a", some ⟨some [strL "read:*"], some [strL "delete:*"], none⟩⟩)]⟩
        (strL "a") (strL "delete:x") [] (some (fun _ => Except.ok (JSVal.num 1))) 42).1
      = ⟨false, false, true, none, none, none, none⟩ :=
  ⟨((C4_execute_gating (fun _ _ _ => true) (fun _ => []) false ⟨⟨[], []⟩, []⟩
      (strL "a") (strL "read:x") [] (some (fun _ => Except.ok (JSVal.num 1))) 42).1
      (by decide)).2.1,
   ((C4_execute_gating (fun _ _ _ => true) (fun _ => []) false
      ⟨⟨[(strL "a", ⟨strL "a", strL "pk", IdStatus.active, 100, []⟩)], [(strL "a", 100)]⟩,
       [(strL "a", ⟨strL "a", some ⟨some [strL "read:*"], some [strL "delete:*"], none⟩⟩)]⟩
      (strL "a") (strL "delete:x") [] (some (fun _ => Except.ok (JSVal.num 1))) 42).2.2
      (by decide) (by decide) (by decide)).2.1⟩

end OpenClaw
